import Mathlib

/-!
# Verification of the cache watch/notify engine (`agent/cache/watch.go`)

This file gives a shallow embedding of `Cache.Notify` and its background
refresh loop, and proves the correctness claims about it.

The embedding has two layers:

* a *pure* layer (`deliverPhase`, `failuresUpdate`, `cursorFloor`,
  `notifyIteration`, `runSession`) describing what one completed loop
  iteration does to the session state (index cursor, failures counter)
  and which `UpdateEvent`s it emits, assuming the iteration runs to
  completion (no cancellation, send completes);

* a *small-step* layer (`Phase`, `Config`, `Label`, `Step`, `Steps`)
  modelling the goroutine's control flow with its suspension points
  (blocking fetch, channel send, backoff sleep), the cancellation signal
  and the delivery-channel state, for the concurrency claims.

Machine integers: the Go code uses `uint64` for the index and `uint` for
the failures counter.  Neither is ever subject to arithmetic other than
comparison, assignment and `failures++`; wraparound would require `2^64`
loop iterations and is not semantically reachable, so both are modelled
as `Nat`.
-/

namespace CacheWatch

/-- `ResultMeta`, modelled at the interface boundary: the only field the
watch loop reads is `Index` (`uint64` in Go, the blocking-query version
index). -/
structure ResultMeta where
  Index : Nat
  deriving Repr, DecidableEq

/-- `UpdateEvent` from `watch.go`: one emitted notification.  `Result`
is type-erased (`interface{}`) in Go, so the embedding is parametrised
by the payload type `α`; `Err` (`error`, possibly nil) is `Option ε`. -/
structure UpdateEvent (α ε : Type) where
  CorrelationID : String
  Result : α
  Meta : ResultMeta
  Err : Option ε
  deriving Repr

/-- The triple `(res, meta, err)` returned by one call of the blocking
fetch collaborator `c.getWithIndex(t, r, index)`. -/
structure FetchResult (α ε : Type) where
  res : α
  meta : ResultMeta
  err : Option ε
  deriving Repr

/-- The per-session mutable state of the goroutine body: the `index`
cursor and the consecutive-`failures` counter. -/
structure SessionState where
  index : Nat
  failures : Nat
  deriving Repr, DecidableEq

/-- Session state at goroutine start: `index := uint64(0)` and
`var failures uint` (zero value). -/
def initialState : SessionState := ⟨0, 0⟩

/-- The event the loop constructs for a change:
`UpdateEvent{correlationID, res, meta, err}` (positional fields). -/
def mkEvent (cid : String) (f : FetchResult α ε) : UpdateEvent α ε :=
  ⟨cid, f.res, f.meta, f.err⟩

/-- Change detection and delivery (watch.go lines 85–97), on the path
where the send completes: if `index < meta.Index` the event is sent and
the cursor becomes `meta.Index`; otherwise nothing is sent and the
cursor is left alone.  Returns `(emitted event?, cursor after)`. -/
def deliverPhase (cid : String) (index : Nat) (f : FetchResult α ε) :
    Option (UpdateEvent α ε) × Nat :=
  if index < f.meta.Index then (some (mkEvent cid f), f.meta.Index)
  else (none, index)

/-- Failure accounting (watch.go lines 99–106):
`if err == nil && meta.Index > 0 { failures = 0 } else { failures++ }`. -/
def failuresUpdate (failures : Nat) (f : FetchResult α ε) : Nat :=
  if f.err.isNone ∧ 0 < f.meta.Index then 0 else failures + 1

/-- Cursor floor (watch.go lines 114–117):
`if index < 1 { index = 1 }`. -/
def cursorFloor (index : Nat) : Nat :=
  if index < 1 then 1 else index

/-- Modelled from the spec: `backOffWait` is repository code that is not
under `src/` (only its caller in `watch.go` is).  §4.3 requires a pure
function that is zero at `failures = 0` and non-decreasing up to a cap,
and §8 requires a nonzero wait once a failure has been counted.  The
concrete curve is explicitly implementation-defined (§9), so any
function with those properties is faithful; waits are in abstract time
units. -/
def backOffWait (failures : Nat) : Nat :=
  min failures 60

/-- One completed loop iteration (no cancellation observed, send
completed): change detection and delivery, then failure accounting, then
the cursor floor.  Returns the emitted event (if any) and the session
state with which the next iteration begins. -/
def notifyIteration (cid : String) (s : SessionState) (f : FetchResult α ε) :
    Option (UpdateEvent α ε) × SessionState :=
  let d := deliverPhase cid s.index f
  (d.1, ⟨cursorFloor d.2, failuresUpdate s.failures f⟩)

/-- Run the loop over a list of fetch results (each entry is what
`getWithIndex` returns on that iteration), assuming no cancellation and
every send completes.  Returns, in order:
* the `minIndex` cursor value passed to each fetch,
* the delivered events, in delivery order,
* the session state after each iteration. -/
def runSession (cid : String) (s : SessionState) :
    List (FetchResult α ε) →
      List Nat × List (UpdateEvent α ε) × List SessionState
  | [] => ([], [], [])
  | f :: fs =>
    let p := notifyIteration cid s f
    let r := runSession cid p.2 fs
    (s.index :: r.1, p.1.toList ++ r.2.1, p.2 :: r.2.2)

/-- Fetch cursors of a run. -/
def fetchIndexes (cid : String) (s : SessionState) (fs : List (FetchResult α ε)) :
    List Nat :=
  (runSession cid s fs).1

/-- Delivered events of a run. -/
def deliveredEvents (cid : String) (s : SessionState) (fs : List (FetchResult α ε)) :
    List (UpdateEvent α ε) :=
  (runSession cid s fs).2.1

/-- Session states after each iteration of a run. -/
def sessionStates (cid : String) (s : SessionState) (fs : List (FetchResult α ε)) :
    List SessionState :=
  (runSession cid s fs).2.2

/-! ## The `Notify` registrar

The registry (`c.types`, guarded by `c.typesLock`) and the
`Type.SupportsBlocking()` method live outside `src/`; the spec (§6)
fixes their interface: a read-only lookup `typeKey → (typeDescriptor,
found)` where the descriptor exposes `supportsBlocking`.  The registry
is therefore embedded as a function `String → Option TypeEntry`, and
the validation logic below is a direct transcription of
`Notify` (watch.go lines 54–66 and 68/121): look the type up, reject an
unknown type, reject a type without blocking support, otherwise start
one fresh background session and return nil.  The set of running
background sessions is modelled as a list to which a successful call
appends the new session's initial configuration. -/

/-- The registered type descriptor, at the §6 interface boundary:
`supportsBlocking` is what `tEntry.Type.SupportsBlocking()` returns. -/
structure TypeEntry where
  supportsBlocking : Bool
  deriving Repr, DecidableEq

/-- The type registry: `c.types` lookup, `(tEntry, ok)` as `Option`. -/
def Registry : Type := String → Option TypeEntry

/-- `Cache.Notify`, synchronous part.  Given the registry, the type key
and the list of already-running sessions, returns the error (the Go
function returns `error`, here the error message string or `none` for
nil) together with the sessions running after the call: validation
failures start nothing; success appends exactly one new session started
at `initialState`, with no deduplication against existing sessions. -/
def notify (reg : Registry) (t : String) (sessions : List SessionState) :
    Option String × List SessionState :=
  match reg t with
  | none => (some ("unknown type in cache: " ++ t), sessions)
  | some tEntry =>
    if !tEntry.supportsBlocking then
      (some "watch requires the type to support blocking", sessions)
    else
      (none, sessions ++ [initialState])

/-! ## Small-step model of the goroutine

The pure layer above assumes each iteration runs to completion.  The
claims about cancellation, channel closure and backpressure need the
suspension points to be visible, so the goroutine body is also given as
a labelled transition system.  A configuration records the control
point (`Phase`), the `index`/`failures` state, whether the governing
context has been cancelled, and whether the consumer has closed the
delivery channel.  The environment's moves — the cancellation signal
firing and the consumer closing the channel — are transitions too
(`cancelArrives`, `chanCloses`), so they can happen between any two
steps of the session.

Go channel semantics embedded here: a send completes only by
synchronising with a receiver on an open channel; a send on a closed
channel causes a run-time panic; `select` chooses nondeterministically
among its ready cases. -/

/-- Control points of the goroutine body in `Notify` (watch.go 68–121).
`fetchWait`, `sendWait` and `sleepWait` are the three suspension
points; `done` is the goroutine having returned; `panicked` is a Go
run-time panic (send on closed channel). -/
inductive Phase (α ε : Type) where
  | checkBefore
  | fetchWait
  | checkAfter (f : FetchResult α ε)
  | sendWait (f : FetchResult α ε)
  | accounting (f : FetchResult α ε)
  | sleepWait
  | done
  | panicked
  deriving Repr

/-- A configuration of one watch session together with its environment
flags. -/
structure Config (α ε : Type) where
  phase : Phase α ε
  index : Nat
  failures : Nat
  cancelled : Bool
  chClosed : Bool
  deriving Repr

/-- Observable labels.  `startFetch i` is the call of
`c.getWithIndex(t, r, i)`; `fetched f` is that call returning;
`send u` is the delivery of `u` on the channel (completed send);
`cancelObserved` is the goroutine returning because it saw
`ctx.Err() != nil` or `ctx.Done()`; `panicSignal` is the run-time panic
from sending on a closed channel; `cancelSignal` and `chanClosed` are
the environment's moves; `tau` is internal computation; `sleep`/`wake`
delimit the backoff wait. -/
inductive Label (α ε : Type) where
  | startFetch (minIndex : Nat)
  | fetched (f : FetchResult α ε)
  | send (u : UpdateEvent α ε)
  | cancelObserved
  | sleep (wait : Nat)
  | wake
  | tau
  | panicSignal
  | cancelSignal
  | chanClosed
  deriving Repr

/-- One step of a watch session (plus the two environment moves).  The
session's constructors transcribe the loop body of `Notify` in source
order. -/
inductive Step (cid : String) : Config α ε → Label α ε → Config α ε → Prop where
  /-- Top of the loop, context already cancelled: return. -/
  | checkBeforeCancelled (i fl : Nat) (cl : Bool) :
      Step cid ⟨.checkBefore, i, fl, true, cl⟩ .cancelObserved
        ⟨.done, i, fl, true, cl⟩
  /-- Context still live: call the blocking fetch with the cursor. -/
  | fetchCall (i fl : Nat) (cl : Bool) :
      Step cid ⟨.checkBefore, i, fl, false, cl⟩ (.startFetch i)
        ⟨.fetchWait, i, fl, false, cl⟩
  /-- The blocking fetch returns `(res, meta, err)`; the backend chooses
  the result, and the call returns whether or not the context has been
  cancelled meanwhile. -/
  | fetchReturns (f : FetchResult α ε) (i fl : Nat) (ca cl : Bool) :
      Step cid ⟨.fetchWait, i, fl, ca, cl⟩ (.fetched f)
        ⟨.checkAfter f, i, fl, ca, cl⟩
  /-- After the fetch, context cancelled meanwhile: return. -/
  | checkAfterCancelled (f : FetchResult α ε) (i fl : Nat) (cl : Bool) :
      Step cid ⟨.checkAfter f, i, fl, true, cl⟩ .cancelObserved
        ⟨.done, i, fl, true, cl⟩
  /-- Change detected (cursor below the fetched index): enter the select
  that sends the event. -/
  | changeDetected (f : FetchResult α ε) (i fl : Nat) (cl : Bool) :
      i < f.meta.Index →
      Step cid ⟨.checkAfter f, i, fl, false, cl⟩ .tau
        ⟨.sendWait f, i, fl, false, cl⟩
  /-- No change: skip delivery, go to failure accounting. -/
  | noChange (f : FetchResult α ε) (i fl : Nat) (cl : Bool) :
      ¬ i < f.meta.Index →
      Step cid ⟨.checkAfter f, i, fl, false, cl⟩ .tau
        ⟨.accounting f, i, fl, false, cl⟩
  /-- The send synchronises with a receiver, only possible on an open
  channel; immediately afterwards the cursor is set to the fetched
  index. -/
  | sendCompletes (f : FetchResult α ε) (i fl : Nat) (ca : Bool) :
      Step cid ⟨.sendWait f, i, fl, ca, false⟩ (.send (mkEvent cid f))
        ⟨.accounting f, f.meta.Index, fl, ca, false⟩
  /-- The delivery select observes cancellation and returns. -/
  | sendCancelled (f : FetchResult α ε) (i fl : Nat) (cl : Bool) :
      Step cid ⟨.sendWait f, i, fl, true, cl⟩ .cancelObserved
        ⟨.done, i, fl, true, cl⟩
  /-- A send on a channel the consumer has closed is a run-time panic. -/
  | sendClosedPanics (f : FetchResult α ε) (i fl : Nat) (ca : Bool) :
      Step cid ⟨.sendWait f, i, fl, ca, true⟩ .panicSignal
        ⟨.panicked, i, fl, ca, true⟩
  /-- Failure accounting, then `backOffWait` positive: enter the backoff
  select. -/
  | backoffEnter (f : FetchResult α ε) (i fl : Nat) (ca cl : Bool) :
      0 < backOffWait (failuresUpdate fl f) →
      Step cid ⟨.accounting f, i, fl, ca, cl⟩
        (.sleep (backOffWait (failuresUpdate fl f)))
        ⟨.sleepWait, i, failuresUpdate fl f, ca, cl⟩
  /-- Failure accounting, zero wait: apply the cursor floor and loop. -/
  | backoffSkip (f : FetchResult α ε) (i fl : Nat) (ca cl : Bool) :
      backOffWait (failuresUpdate fl f) = 0 →
      Step cid ⟨.accounting f, i, fl, ca, cl⟩ .tau
        ⟨.checkBefore, cursorFloor i, failuresUpdate fl f, ca, cl⟩
  /-- The backoff timer fires; apply the cursor floor and loop. -/
  | sleepWakes (i fl : Nat) (ca cl : Bool) :
      Step cid ⟨.sleepWait, i, fl, ca, cl⟩ .wake
        ⟨.checkBefore, cursorFloor i, fl, ca, cl⟩
  /-- The backoff select observes cancellation and returns. -/
  | sleepCancelled (i fl : Nat) (cl : Bool) :
      Step cid ⟨.sleepWait, i, fl, true, cl⟩ .cancelObserved
        ⟨.done, i, fl, true, cl⟩
  /-- Environment: the governing context is cancelled.  Can happen at
  any control point. -/
  | cancelArrives (p : Phase α ε) (i fl : Nat) (cl : Bool) :
      Step cid ⟨p, i, fl, false, cl⟩ .cancelSignal ⟨p, i, fl, true, cl⟩
  /-- Environment: the consumer closes the delivery channel.  Can happen
  at any control point. -/
  | chanCloses (p : Phase α ε) (i fl : Nat) (ca : Bool) :
      Step cid ⟨p, i, fl, ca, false⟩ .chanClosed ⟨p, i, fl, ca, true⟩

/-- Finite executions: `Steps cid c ls c'` means the labels `ls` can be
observed, in order, on some run from `c` to `c'`. -/
inductive Steps (cid : String) : Config α ε → List (Label α ε) → Config α ε → Prop where
  | refl (c : Config α ε) : Steps cid c [] c
  | cons {c c' c'' : Config α ε} {l : Label α ε} {ls : List (Label α ε)} :
      Step cid c l c' → Steps cid c' ls c'' → Steps cid c (l :: ls) c''

/-! ## Helper lemmas: the pure layer -/

lemma cursorFloor_le (i : Nat) : i ≤ cursorFloor i := by
  unfold cursorFloor; split <;> omega

lemma one_le_cursorFloor (i : Nat) : 1 ≤ cursorFloor i := by
  unfold cursorFloor; split <;> omega

lemma cursorFloor_of_pos {i : Nat} (h : 1 ≤ i) : cursorFloor i = i := by
  unfold cursorFloor; split <;> omega

lemma iteration_event_of_lt (cid : String) (s : SessionState) (f : FetchResult α ε)
    (h : s.index < f.meta.Index) :
    notifyIteration cid s f =
      (some (mkEvent cid f), ⟨f.meta.Index, failuresUpdate s.failures f⟩) := by
  have h1 : 1 ≤ f.meta.Index := by omega
  simp [notifyIteration, deliverPhase, h, cursorFloor_of_pos h1]

lemma iteration_no_event_of_ge (cid : String) (s : SessionState) (f : FetchResult α ε)
    (h : f.meta.Index ≤ s.index) :
    notifyIteration cid s f =
      (none, ⟨cursorFloor s.index, failuresUpdate s.failures f⟩) := by
  simp [notifyIteration, deliverPhase, Nat.not_lt.mpr h]

lemma iteration_failures (cid : String) (s : SessionState) (f : FetchResult α ε) :
    (notifyIteration cid s f).2.failures = failuresUpdate s.failures f := rfl

lemma fetchIndexes_cons (cid : String) (s : SessionState) (f : FetchResult α ε)
    (fs : List (FetchResult α ε)) :
    fetchIndexes cid s (f :: fs) =
      s.index :: fetchIndexes cid (notifyIteration cid s f).2 fs := rfl

lemma deliveredEvents_cons (cid : String) (s : SessionState) (f : FetchResult α ε)
    (fs : List (FetchResult α ε)) :
    deliveredEvents cid s (f :: fs) =
      (notifyIteration cid s f).1.toList ++
        deliveredEvents cid (notifyIteration cid s f).2 fs := rfl

lemma sessionStates_cons (cid : String) (s : SessionState) (f : FetchResult α ε)
    (fs : List (FetchResult α ε)) :
    sessionStates cid s (f :: fs) =
      (notifyIteration cid s f).2 :: sessionStates cid (notifyIteration cid s f).2 fs := rfl

lemma iteration_index_mono (cid : String) (s : SessionState) (f : FetchResult α ε) :
    s.index ≤ (notifyIteration cid s f).2.index := by
  by_cases h : s.index < f.meta.Index
  · rw [iteration_event_of_lt cid s f h]; exact Nat.le_of_lt h
  · rw [iteration_no_event_of_ge cid s f (Nat.not_lt.mp h)]; exact cursorFloor_le s.index

lemma iteration_index_pos (cid : String) (s : SessionState) (f : FetchResult α ε) :
    1 ≤ (notifyIteration cid s f).2.index := by
  by_cases h : s.index < f.meta.Index
  · rw [iteration_event_of_lt cid s f h]; exact Nat.lt_of_le_of_lt (Nat.zero_le _) h
  · rw [iteration_no_event_of_ge cid s f (Nat.not_lt.mp h)]; exact one_le_cursorFloor s.index

lemma chain_lt_of_le {a b : Nat} {l : List Nat} (hab : a ≤ b)
    (h : List.Chain (· < ·) b l) : List.Chain (· < ·) a l := by
  cases l with
  | nil => exact List.Chain.nil
  | cons x xs =>
    cases h with
    | cons hx hrest => exact List.Chain.cons (by omega) hrest

lemma chain_lt_mem {a : Nat} {l : List Nat} (h : List.Chain (· < ·) a l) :
    ∀ x ∈ l, a < x := by
  induction l generalizing a with
  | nil => simp
  | cons b l ih =>
    cases h with
    | cons hab hrest =>
      intro x hx
      rcases List.mem_cons.mp hx with rfl | hx
      · exact hab
      · exact Nat.lt_trans hab (ih hrest x hx)

/-- Delivered events carry strictly increasing indices, all above the
cursor the session started from, for every fetch sequence. -/
lemma events_index_chain (cid : String) (fs : List (FetchResult α ε)) :
    ∀ s : SessionState,
      List.Chain (· < ·) s.index ((deliveredEvents cid s fs).map fun u => u.Meta.Index) := by
  induction fs with
  | nil => intro s; simp [deliveredEvents, runSession]
  | cons f fs ih =>
    intro s
    by_cases h : s.index < f.meta.Index
    · rw [deliveredEvents_cons, iteration_event_of_lt cid s f h]
      simp only [Option.toList_some, List.singleton_append, List.map_cons]
      exact List.Chain.cons h (ih ⟨f.meta.Index, failuresUpdate s.failures f⟩)
    · rw [deliveredEvents_cons, iteration_no_event_of_ge cid s f (Nat.not_lt.mp h)]
      simp only [Option.toList_none, List.nil_append]
      exact chain_lt_of_le (cursorFloor_le s.index)
        (ih ⟨cursorFloor s.index, failuresUpdate s.failures f⟩)

/-- The cursor passed to successive fetches never decreases, for every
fetch sequence. -/
lemma fetchIndexes_chain_le (cid : String) (fs : List (FetchResult α ε)) :
    ∀ s : SessionState, List.Chain' (· ≤ ·) (fetchIndexes cid s fs) := by
  induction fs with
  | nil => intro s; simp [fetchIndexes, runSession]
  | cons f fs ih =>
    intro s
    rw [fetchIndexes_cons, List.chain'_cons']
    refine ⟨?_, ih _⟩
    cases fs with
    | nil => intro y hy; simp [fetchIndexes, runSession] at hy
    | cons g gs =>
      intro y hy
      rw [fetchIndexes_cons] at hy
      simp only [List.head?_cons, Option.mem_def, Option.some.injEq] at hy
      exact hy ▸ iteration_index_mono cid s f

/-- From a cursor at least 1, every later fetch cursor is at least 1. -/
lemma fetchIndexes_all_pos (cid : String) (fs : List (FetchResult α ε)) :
    ∀ s : SessionState, 1 ≤ s.index → ∀ i ∈ fetchIndexes cid s fs, 1 ≤ i := by
  induction fs with
  | nil => intro s _ i hi; simp [fetchIndexes, runSession] at hi
  | cons f fs ih =>
    intro s hs i hi
    rw [fetchIndexes_cons] at hi
    rcases List.mem_cons.mp hi with rfl | hi
    · exact hs
    · exact ih _ (iteration_index_pos cid s f) i hi

/-- A fetch sequence whose indices strictly increase from above the
cursor, with no errors, delivers one event per fetch and keeps the
failures counter at zero. -/
lemma run_of_chain (cid : String) (fs : List (FetchResult α ε)) :
    ∀ s : SessionState,
      List.Chain (· < ·) s.index (fs.map fun f => f.meta.Index) →
      (∀ f ∈ fs, f.err = none) →
      deliveredEvents cid s fs = fs.map (mkEvent cid) ∧
      ∀ st ∈ sessionStates cid s fs, st.failures = 0 := by
  induction fs with
  | nil =>
    intro s _ _
    exact ⟨rfl, by simp [sessionStates, runSession]⟩
  | cons f fs ih =>
    intro s hchain herr
    rw [List.map_cons] at hchain
    cases hchain with
    | cons hlt hrest =>
      have herr0 : f.err = none := herr f (List.mem_cons_self f fs)
      have hpos : 0 < f.meta.Index := Nat.lt_of_le_of_lt (Nat.zero_le _) hlt
      have hfl : failuresUpdate s.failures f = 0 := by
        simp [failuresUpdate, herr0, hpos]
      have hiter : notifyIteration cid s f = (some (mkEvent cid f), ⟨f.meta.Index, 0⟩) := by
        rw [iteration_event_of_lt cid s f hlt, hfl]
      obtain ⟨he, hst⟩ := ih ⟨f.meta.Index, 0⟩ hrest
        (fun g hg => herr g (List.mem_cons_of_mem f hg))
      refine ⟨?_, ?_⟩
      · rw [deliveredEvents_cons, hiter]
        simpa using he
      · intro st hst'
        rw [sessionStates_cons, hiter] at hst'
        rcases List.mem_cons.mp hst' with rfl | h2
        · rfl
        · exact hst st h2

/-! ## Helper lemmas: the small-step layer -/

/-- A step out of a terminated or panicked session can only be an
environment move, and it leaves the phase alone. -/
lemma step_terminal {cid : String} {c c' : Config α ε} {l : Label α ε}
    (h : Step cid c l c')
    (hc : c.phase = Phase.done ∨ c.phase = Phase.panicked) :
    (c'.phase = Phase.done ∨ c'.phase = Phase.panicked) ∧
      (l = Label.cancelSignal ∨ l = Label.chanClosed) := by
  cases h <;> simp_all

/-- After termination or a panic, an execution shows only environment
labels: no fetch, no send, nothing. -/
lemma steps_terminal {cid : String} :
    ∀ {c c' : Config α ε} {ls : List (Label α ε)}, Steps cid c ls c' →
      (c.phase = Phase.done ∨ c.phase = Phase.panicked) →
      ∀ l ∈ ls, l = Label.cancelSignal ∨ l = Label.chanClosed := by
  intro c c' ls h
  induction h with
  | refl => intro _ l hl; simp at hl
  | cons hstep _ ih =>
    intro hc l hl
    obtain ⟨hterm, henv⟩ := step_terminal hstep hc
    rcases List.mem_cons.mp hl with rfl | hl
    · exact henv
    · exact ih hterm l hl

/-- Every step labelled `cancelObserved` is the goroutine returning: the
target phase is `done` and the session state is left untouched. -/
lemma step_cancelObserved {cid : String} {c c' : Config α ε}
    (h : Step cid c Label.cancelObserved c') :
    c'.phase = Phase.done ∧ c'.index = c.index ∧ c'.failures = c.failures := by
  cases h <;> simp_all

/-- Exhaustive case split on the steps available while blocked in the
delivery select, for any channel state: the send completes (open channel
only, advancing the cursor), cancellation is observed, the closed
channel panics, or the environment moves and the session stays put. -/
lemma step_sendWait_any {cid : String} {f : FetchResult α ε} {i fl : Nat} {ca cl : Bool}
    {l : Label α ε} {c' : Config α ε}
    (h : Step cid ⟨Phase.sendWait f, i, fl, ca, cl⟩ l c') :
    (l = Label.send (mkEvent cid f) ∧ cl = false ∧
      c' = ⟨Phase.accounting f, f.meta.Index, fl, ca, false⟩) ∨
    (l = Label.cancelObserved ∧ ca = true ∧ c' = ⟨Phase.done, i, fl, true, cl⟩) ∨
    (l = Label.panicSignal ∧ cl = true ∧ c' = ⟨Phase.panicked, i, fl, ca, true⟩) ∨
    (l = Label.cancelSignal ∧ ca = false ∧ c' = ⟨Phase.sendWait f, i, fl, true, cl⟩) ∨
    (l = Label.chanClosed ∧ cl = false ∧ c' = ⟨Phase.sendWait f, i, fl, ca, true⟩) := by
  cases h <;> simp_all

/-- While the session is blocked in the delivery select, no fetch can
happen before the pending event is actually received: any execution from
a `sendWait` configuration in which a fetch call appears contains the
completed send of exactly the pending event strictly before it. -/
lemma sendWait_no_fetch_before_send {cid : String} {f : FetchResult α ε} :
    ∀ {c c' : Config α ε} {ls : List (Label α ε)}, Steps cid c ls c' →
      c.phase = Phase.sendWait f → ∀ j, Label.startFetch j ∈ ls →
      ∃ pre suf, ls = pre ++ Label.send (mkEvent cid f) :: suf ∧
        ∀ k, Label.startFetch k ∉ pre := by
  intro c c' ls h
  induction h with
  | refl => intro _ j hj; simp at hj
  | cons hstep hrest ih =>
    intro hc j hj
    rename_i c₀ c₁ _ l ls'
    obtain ⟨p, i, fl, ca, cl⟩ := c₀
    simp only at hc
    subst hc
    rcases step_sendWait_any hstep with
      ⟨rfl, _, rfl⟩ | ⟨rfl, _, rfl⟩ | ⟨rfl, _, rfl⟩ | ⟨rfl, _, rfl⟩ | ⟨rfl, _, rfl⟩
    · exact ⟨[], ls', rfl, by simp⟩
    · have := steps_terminal hrest (Or.inl rfl)
      rcases List.mem_cons.mp hj with hj | hj
      · simp at hj
      · rcases this _ hj with h1 | h1 <;> simp at h1
    · have := steps_terminal hrest (Or.inr rfl)
      rcases List.mem_cons.mp hj with hj | hj
      · simp at hj
      · rcases this _ hj with h1 | h1 <;> simp at h1
    · rcases List.mem_cons.mp hj with hj | hj
      · simp at hj
      · obtain ⟨pre, suf, heq, hpre⟩ := ih rfl j hj
        exact ⟨Label.cancelSignal :: pre, suf, by rw [heq, List.cons_append], by
          intro k hk
          rcases List.mem_cons.mp hk with hk | hk
          · simp at hk
          · exact hpre k hk⟩
    · rcases List.mem_cons.mp hj with hj | hj
      · simp at hj
      · obtain ⟨pre, suf, heq, hpre⟩ := ih rfl j hj
        exact ⟨Label.chanClosed :: pre, suf, by rw [heq, List.cons_append], by
          intro k hk
          rcases List.mem_cons.mp hk with hk | hk
          · simp at hk
          · exact hpre k hk⟩

/-! ## The claims -/

/-- Claim C1: on each loop iteration an `UpdateEvent` is sent exactly
when the cursor is strictly below the fetched `meta.Index`; the event is
`{CorrelationID = the registration's correlationID, Result, Meta, Err}`
verbatim, and after a completed send the cursor is `meta.Index`
unconditionally (also with a non-nil error); when `meta.Index ≤ cursor`
the change-detection step sends nothing and leaves the cursor
unchanged. -/
theorem notify_change_detection_and_delivery (cid : String) (s : SessionState)
    (f : FetchResult α ε) :
    (s.index < f.meta.Index →
      notifyIteration cid s f =
        (some ⟨cid, f.res, f.meta, f.err⟩,
          ⟨f.meta.Index, failuresUpdate s.failures f⟩)) ∧
    (f.meta.Index ≤ s.index → deliverPhase cid s.index f = (none, s.index)) := by
  constructor
  · intro h
    exact iteration_event_of_lt cid s f h
  · intro h
    simp [deliverPhase, Nat.not_lt.mpr h]

/-- Witness for C1, the spec's own example: first fetch returns
`(v1, {Index: 5}, nil)` against cursor 0, so the event
`{svcA, v1, {Index: 5}, nil}` is delivered and the cursor becomes 5;
at cursor 5 a fetch at index 5 delivers nothing. -/
theorem notify_change_detection_and_delivery_witness :
    notifyIteration "svcA" initialState (⟨(), ⟨5⟩, none⟩ : FetchResult Unit Unit) =
      (some ⟨"svcA", (), ⟨5⟩, none⟩, ⟨5, 0⟩) ∧
    deliverPhase "svcA" 5 (⟨(), ⟨5⟩, none⟩ : FetchResult Unit Unit) = (none, 5) :=
  ⟨(notify_change_detection_and_delivery "svcA" initialState ⟨(), ⟨5⟩, none⟩).1
      (by decide),
   (notify_change_detection_and_delivery "svcA" ⟨5, 0⟩ ⟨(), ⟨5⟩, none⟩).2 (by decide)⟩

/-- Counterexample to claim C2 as stated: the fetch sequence with
indices `[0, 1]`, strictly increasing and error-free, delivers no event
at all (the claim requires one event per distinct index), and the
failures counter reaches 1 after the first iteration (the claim
requires it to remain 0). -/
theorem notify_event_per_index_counterexample :
    deliveredEvents "a" initialState
        [(⟨(), ⟨0⟩, none⟩ : FetchResult Unit Unit), ⟨(), ⟨1⟩, none⟩] = [] ∧
    (sessionStates "a" initialState
        [(⟨(), ⟨0⟩, none⟩ : FetchResult Unit Unit), ⟨(), ⟨1⟩, none⟩]).map
      SessionState.failures = [1, 0] :=
  ⟨rfl, rfl⟩

/-- Claim C2 (amended): within one session the delivered events always
have strictly increasing `Meta.Index` (so no two share an index); and
for every sequence of fetch results with strictly increasing *positive*
indices and no errors, exactly one event is delivered per index, in
increasing order, with the failures counter remaining 0 between them.
(As stated the claim fails when the sequence starts at index 0: that
fetch delivers nothing, counts as a failure, and the cursor floor then
swallows index 1.) -/
theorem notify_events_strictly_increasing (cid : String) (s : SessionState)
    (fs : List (FetchResult α ε)) :
    List.Chain (· < ·) s.index
      ((deliveredEvents cid s fs).map fun u => u.Meta.Index) ∧
    (List.Chain (· < ·) 0 (fs.map fun f => f.meta.Index) →
      (∀ f ∈ fs, f.err = none) →
      deliveredEvents cid initialState fs = fs.map (mkEvent cid) ∧
      ∀ st ∈ sessionStates cid initialState fs, st.failures = 0) :=
  ⟨events_index_chain cid fs s,
   fun h1 h2 => run_of_chain cid fs initialState h1 h2⟩

/-- Witness for C2: the error-free fetch sequence with indices `[2, 5]`
delivers exactly the two events, in order, with the failures counter 0
after both iterations. -/
theorem notify_events_strictly_increasing_witness :
    deliveredEvents "w" initialState
        [(⟨(), ⟨2⟩, none⟩ : FetchResult Unit Unit), ⟨(), ⟨5⟩, none⟩] =
      [⟨"w", (), ⟨2⟩, none⟩, ⟨"w", (), ⟨5⟩, none⟩] ∧
    ∀ st ∈ sessionStates "w" initialState
        [(⟨(), ⟨2⟩, none⟩ : FetchResult Unit Unit), ⟨(), ⟨5⟩, none⟩],
      st.failures = 0 := by
  have h := (notify_events_strictly_increasing "w" initialState
      [(⟨(), ⟨2⟩, none⟩ : FetchResult Unit Unit), ⟨(), ⟨5⟩, none⟩]).2
    (List.Chain.cons (by decide) (List.Chain.cons (by decide) List.Chain.nil))
    (by intro f hf; rcases List.mem_cons.mp hf with rfl | hf
        · rfl
        · rcases List.mem_cons.mp hf with rfl | hf
          · rfl
          · simp at hf)
  exact ⟨h.1, h.2⟩

/-- Claim C3: the failures counter is reset to 0 exactly when the fetch
returned no error and a positive index, and is incremented by one
otherwise; in particular an index-0, error-free fetch counts as a
failure, and once a failure has been counted the backoff wait is
positive (no busy loop). -/
theorem notify_failure_accounting (cid : String) (s : SessionState)
    (f : FetchResult α ε) :
    (f.err = none → 0 < f.meta.Index →
      (notifyIteration cid s f).2.failures = 0) ∧
    (¬ (f.err = none ∧ 0 < f.meta.Index) →
      (notifyIteration cid s f).2.failures = s.failures + 1) ∧
    (f.err = none → f.meta.Index = 0 →
      (notifyIteration cid s f).2.failures = s.failures + 1 ∧
      0 < backOffWait (notifyIteration cid s f).2.failures) := by
  refine ⟨?_, ?_, ?_⟩
  · intro h1 h2
    rw [iteration_failures]
    simp [failuresUpdate, h1, h2]
  · intro h
    rw [iteration_failures]
    have h' : ¬ (f.err.isNone ∧ 0 < f.meta.Index) := by
      simpa [Option.isNone_iff_eq_none] using h
    simp only [failuresUpdate, if_neg h']
  · intro h1 h2
    have h' : ¬ (f.err.isNone ∧ 0 < f.meta.Index) := by simp [h2]
    constructor
    · rw [iteration_failures]
      simp only [failuresUpdate, if_neg h']
    · rw [iteration_failures]
      simp only [failuresUpdate, if_neg h']
      unfold backOffWait
      omega

/-- Witness for C3: a fetch returning index 0 with no error increments
the failures counter from 0 to 1 and forces a positive backoff wait. -/
theorem notify_failure_accounting_witness :
    (notifyIteration "b" initialState
        (⟨(), ⟨0⟩, none⟩ : FetchResult Unit Unit)).2.failures = 0 + 1 ∧
    0 < backOffWait (notifyIteration "b" initialState
        (⟨(), ⟨0⟩, none⟩ : FetchResult Unit Unit)).2.failures :=
  (notify_failure_accounting "b" initialState ⟨(), ⟨0⟩, none⟩).2.2 rfl rfl

/-- Claim C4: the cursor starts at 0, so the session's first fetch is
invoked with `minIndex = 0`; the end of every iteration leaves the
cursor at least 1, so every fetch after the first is invoked with
`minIndex ≥ 1`. -/
theorem notify_cursor_floor (cid : String) (s : SessionState)
    (f : FetchResult α ε) (fs : List (FetchResult α ε)) :
    initialState.index = 0 ∧
    (fetchIndexes cid initialState (f :: fs)).head? = some 0 ∧
    1 ≤ (notifyIteration cid s f).2.index ∧
    (∀ i ∈ (fetchIndexes cid initialState fs).tail, 1 ≤ i) := by
  refine ⟨rfl, rfl, iteration_index_pos cid s f, ?_⟩
  cases fs with
  | nil => intro i hi; simp [fetchIndexes, runSession] at hi
  | cons g gs =>
    intro i hi
    rw [fetchIndexes_cons] at hi
    simp only [List.tail_cons] at hi
    exact fetchIndexes_all_pos cid gs _ (iteration_index_pos cid initialState g) i hi

/-- Witness for C4: with fetches at indices 7 then 9, the first fetch
uses `minIndex = 0` and the cursor after the first iteration is at
least 1. -/
theorem notify_cursor_floor_witness :
    (fetchIndexes "c" initialState
        [(⟨(), ⟨7⟩, none⟩ : FetchResult Unit Unit), ⟨(), ⟨9⟩, none⟩]).head? =
      some 0 ∧
    1 ≤ (notifyIteration "c" initialState
        (⟨(), ⟨7⟩, none⟩ : FetchResult Unit Unit)).2.index :=
  ⟨(notify_cursor_floor "c" initialState ⟨(), ⟨7⟩, none⟩ [⟨(), ⟨9⟩, none⟩]).2.1,
   (notify_cursor_floor "c" initialState ⟨(), ⟨7⟩, none⟩ []).2.2.1⟩

/-- Claim C9: the cursor never moves backward: a fetched index at or
below the cursor is ignored by the change-detection step (no event, no
cursor change), one iteration never decreases the cursor, and over any
fetch sequence — a regressing backend included — the cursors passed to
successive fetches are non-decreasing. -/
theorem notify_cursor_monotone (cid : String) (s : SessionState)
    (f : FetchResult α ε) (fs : List (FetchResult α ε)) :
    (f.meta.Index ≤ s.index → deliverPhase cid s.index f = (none, s.index)) ∧
    s.index ≤ (notifyIteration cid s f).2.index ∧
    List.Chain' (· ≤ ·) (fetchIndexes cid s fs) :=
  ⟨fun h => by simp [deliverPhase, Nat.not_lt.mpr h],
   iteration_index_mono cid s f,
   fetchIndexes_chain_le cid fs s⟩

/-- Witness for C9: a backend regression to index 3 below cursor 5 is
ignored, and the fetch cursors of a session run stay non-decreasing. -/
theorem notify_cursor_monotone_witness :
    deliverPhase "d" (5 : Nat) (⟨(), ⟨3⟩, none⟩ : FetchResult Unit Unit) =
      (none, 5) ∧
    List.Chain' (· ≤ ·) (fetchIndexes "d" (⟨5, 0⟩ : SessionState)
      [(⟨(), ⟨3⟩, none⟩ : FetchResult Unit Unit), ⟨(), ⟨4⟩, none⟩]) := by
  have h := notify_cursor_monotone "d" (⟨5, 0⟩ : SessionState)
    (⟨(), ⟨3⟩, none⟩ : FetchResult Unit Unit)
    [(⟨(), ⟨3⟩, none⟩ : FetchResult Unit Unit), ⟨(), ⟨4⟩, none⟩]
  exact ⟨h.1 (by decide), h.2.2⟩

/-- Claim C10: a fetch whose `meta.Index` is 0 never produces a
delivered event, whatever the error and the iteration (the cursor is a
natural number, so `cursor < 0` is impossible); consequently every event
a session ever delivers has index at least 1, and an initial cached
value reported at index 0 is silently not delivered. -/
theorem notify_index_zero_never_delivered (cid : String) (idx : Nat)
    (f : FetchResult α ε) (fs : List (FetchResult α ε)) (u : UpdateEvent α ε) :
    (f.meta.Index = 0 → (deliverPhase cid idx f).1 = none) ∧
    (u ∈ deliveredEvents cid initialState fs → 1 ≤ u.Meta.Index) := by
  constructor
  · intro h
    simp [deliverPhase, h]
  · intro hu
    have hch := events_index_chain cid fs initialState
    have hm : u.Meta.Index ∈ (deliveredEvents cid initialState fs).map
        fun v => v.Meta.Index := List.mem_map_of_mem _ hu
    exact chain_lt_mem hch _ hm

/-- Witness for C10: an index-0 fetch (even error-free) yields no event,
and a delivered event of a concrete run has index at least 1. -/
theorem notify_index_zero_never_delivered_witness :
    (deliverPhase "e" 4 (⟨(), ⟨0⟩, none⟩ : FetchResult Unit Unit)).1 = none ∧
    1 ≤ (mkEvent "e" (⟨(), ⟨5⟩, none⟩ : FetchResult Unit Unit)).Meta.Index := by
  have h := notify_index_zero_never_delivered "e" 4
    (⟨(), ⟨0⟩, none⟩ : FetchResult Unit Unit)
    [(⟨(), ⟨5⟩, none⟩ : FetchResult Unit Unit)]
    (mkEvent "e" ⟨(), ⟨5⟩, none⟩)
  refine ⟨h.1 rfl, h.2 ?_⟩
  show mkEvent "e" _ ∈ deliveredEvents "e" initialState _
  rw [show deliveredEvents "e" initialState
      [(⟨(), ⟨5⟩, none⟩ : FetchResult Unit Unit)] =
    [mkEvent "e" ⟨(), ⟨5⟩, none⟩] from rfl]
  exact List.mem_singleton_self _

/-- Claim C5: observing cancellation at any suspension point silently
terminates the session.  Every `cancelObserved` step goes straight to
`done` leaving the session state untouched and reporting nothing; from
`done` no execution ever shows another fetch call, fetch return or send;
and at each of the four cancellation check points (loop top, after the
fetch, the delivery select, the backoff select) a cancelled context
makes the terminating step available. -/
theorem notify_cancellation_silent (cid : String) (c c' : Config α ε)
    (ls : List (Label α ε)) (c'' : Config α ε) :
    (Step cid c Label.cancelObserved c' →
      c'.phase = Phase.done ∧ c'.index = c.index ∧ c'.failures = c.failures) ∧
    (Steps cid c ls c'' → c.phase = Phase.done →
      (∀ j, Label.startFetch j ∉ ls) ∧ (∀ f, Label.fetched f ∉ ls) ∧
      (∀ u, Label.send u ∉ ls)) ∧
    (c.cancelled = true →
      (c.phase = Phase.checkBefore ∨ (∃ f, c.phase = Phase.checkAfter f) ∨
        (∃ f, c.phase = Phase.sendWait f) ∨ c.phase = Phase.sleepWait) →
      ∃ d, Step cid c Label.cancelObserved d ∧ d.phase = Phase.done) := by
  refine ⟨?_, ?_, ?_⟩
  · intro h
    exact step_cancelObserved h
  · intro h hc
    have henv := steps_terminal h (Or.inl hc)
    refine ⟨?_, ?_, ?_⟩
    · intro j hj; rcases henv _ hj with h1 | h1 <;> simp at h1
    · intro f hf; rcases henv _ hf with h1 | h1 <;> simp at h1
    · intro u hu; rcases henv _ hu with h1 | h1 <;> simp at h1
  · intro hca hp
    obtain ⟨p, i, fl, ca, cl⟩ := c
    have hca' : ca = true := hca
    subst hca'
    rcases hp with hp | ⟨f, hp⟩ | ⟨f, hp⟩ | hp
    · have hp' : p = Phase.checkBefore := hp
      subst hp'
      exact ⟨_, Step.checkBeforeCancelled i fl cl, rfl⟩
    · have hp' : p = Phase.checkAfter f := hp
      subst hp'
      exact ⟨_, Step.checkAfterCancelled f i fl cl, rfl⟩
    · have hp' : p = Phase.sendWait f := hp
      subst hp'
      exact ⟨_, Step.sendCancelled f i fl cl, rfl⟩
    · have hp' : p = Phase.sleepWait := hp
      subst hp'
      exact ⟨_, Step.sleepCancelled i fl cl, rfl⟩

/-- Witness for C5: a session sleeping in backoff under a cancelled
context can take the terminating step to `done`. -/
theorem notify_cancellation_silent_witness :
    ∃ d, Step "s5" (⟨Phase.sleepWait, 3, 2, true, false⟩ : Config Unit Unit)
      Label.cancelObserved d ∧ d.phase = Phase.done :=
  (notify_cancellation_silent "s5"
      (⟨Phase.sleepWait, 3, 2, true, false⟩ : Config Unit Unit)
      ⟨Phase.sleepWait, 3, 2, true, false⟩ []
      ⟨Phase.sleepWait, 3, 2, true, false⟩).2.2 rfl
    (Or.inr (Or.inr (Or.inr rfl)))

/-- Claim C6: `Notify` fails synchronously — before any background work —
with the unknown-type error when the type key is not registered and with
the unsupported-operation error when the registered type does not
support blocking, starting no session in either case; otherwise it
returns nil and starts exactly one fresh background session per call,
with no deduplication against already-running sessions. -/
theorem notify_registration_validation (reg : Registry) (t : String)
    (sessions : List SessionState) :
    (reg t = none →
      notify reg t sessions = (some ("unknown type in cache: " ++ t), sessions)) ∧
    (∀ e, reg t = some e → e.supportsBlocking = false →
      notify reg t sessions =
        (some "watch requires the type to support blocking", sessions)) ∧
    (∀ e, reg t = some e → e.supportsBlocking = true →
      notify reg t sessions = (none, sessions ++ [initialState]) ∧
      (notify reg t sessions).2.length = sessions.length + 1) := by
  refine ⟨?_, ?_, ?_⟩
  · intro h
    simp [notify, h]
  · intro e h hb
    simp [notify, h, hb]
  · intro e h hb
    have heq : notify reg t sessions = (none, sessions ++ [initialState]) := by
      simp [notify, h, hb]
    exact ⟨heq, by rw [heq]; simp⟩

/-- Witness for C6: a registry knowing only the blocking-capable type
key `svc` accepts a watch for `svc`, starting one session, and rejects
the unknown key `other` synchronously. -/
theorem notify_registration_validation_witness :
    notify (fun k => if k = "svc" then some ⟨true⟩ else none) "svc" [] =
      (none, [initialState]) ∧
    notify (fun k => if k = "svc" then some ⟨true⟩ else none) "other" [] =
      (some ("unknown type in cache: " ++ "other"), []) := by
  have h1 := (notify_registration_validation
      (fun k => if k = "svc" then some ⟨true⟩ else none) "svc" []).2.2 ⟨true⟩
    (by simp) rfl
  have h2 := (notify_registration_validation
      (fun k => if k = "svc" then some ⟨true⟩ else none) "other" []).1 (by simp)
  exact ⟨by simpa using h1.1, h2⟩

/-- Claim C7 names a code bug: with the delivery channel closed by the
consumer, a live (uncancelled) session holding a pending event has
exactly one own move, the run-time panic of a send on a closed channel —
there is no silent-stop step and no completed send, contradicting the
required "stop immediately, no panic, no further writes". -/
theorem notify_closed_channel_panics :
    ∀ (l : Label Unit Unit) (c' : Config Unit Unit),
      Step "svcA" ⟨Phase.sendWait ⟨(), ⟨5⟩, none⟩, 0, 0, false, true⟩ l c' →
      (l = Label.panicSignal ∧ c'.phase = Phase.panicked) ∨
        l = Label.cancelSignal := by
  intro l c' h
  rcases step_sendWait_any h with
    ⟨_, hcl, _⟩ | ⟨_, hca, _⟩ | ⟨rfl, _, rfl⟩ | ⟨rfl, _, rfl⟩ | ⟨_, hcl, _⟩
  · simp at hcl
  · simp at hca
  · exact Or.inl ⟨rfl, rfl⟩
  · exact Or.inr rfl
  · simp at hcl

/-- Witness for C7: the panic step itself, taken at the failing
configuration. -/
theorem notify_closed_channel_panics_witness :
    ((Label.panicSignal : Label Unit Unit) = Label.panicSignal ∧
      (⟨Phase.panicked, 0, 0, false, true⟩ : Config Unit Unit).phase =
        Phase.panicked) ∨
      (Label.panicSignal : Label Unit Unit) = Label.cancelSignal :=
  notify_closed_channel_panics Label.panicSignal
    ⟨Phase.panicked, 0, 0, false, true⟩
    (Step.sendClosedPanics ⟨(), ⟨5⟩, none⟩ 0 0 false)

/-- Claim C8: while blocked on the delivery send with the channel open,
the session's only moves are the completed send — which delivers exactly
the pending event and only then advances the cursor to `meta.Index` —
or the observation of cancellation; there is no event-dropping or
timeout step, and in any execution from the send, a fetch call can only
appear strictly after the completed send of that very event. -/
theorem notify_send_blocks_session (cid : String) (f : FetchResult α ε)
    (i fl : Nat) (ca : Bool) (l : Label α ε) (c c' c'' : Config α ε)
    (ls : List (Label α ε)) (j : Nat) :
    (Step cid ⟨Phase.sendWait f, i, fl, ca, false⟩ l c' →
      (l = Label.send (mkEvent cid f) ∧
        c' = ⟨Phase.accounting f, f.meta.Index, fl, ca, false⟩) ∨
      (l = Label.cancelObserved ∧ c'.phase = Phase.done ∧ c'.index = i) ∨
      ((l = Label.cancelSignal ∨ l = Label.chanClosed) ∧
        c'.phase = Phase.sendWait f ∧ c'.index = i)) ∧
    (Steps cid c ls c'' → c.phase = Phase.sendWait f →
      Label.startFetch j ∈ ls →
      ∃ pre suf, ls = pre ++ Label.send (mkEvent cid f) :: suf ∧
        ∀ k, Label.startFetch k ∉ pre) := by
  constructor
  · intro h
    rcases step_sendWait_any h with
      ⟨rfl, _, rfl⟩ | ⟨rfl, _, rfl⟩ | ⟨_, hcl, _⟩ | ⟨rfl, _, rfl⟩ | ⟨rfl, _, rfl⟩
    · exact Or.inl ⟨rfl, rfl⟩
    · exact Or.inr (Or.inl ⟨rfl, rfl, rfl⟩)
    · simp at hcl
    · exact Or.inr (Or.inr ⟨Or.inl rfl, rfl, rfl⟩)
    · exact Or.inr (Or.inr ⟨Or.inr rfl, rfl, rfl⟩)
  · intro h hc hj
    exact sendWait_no_fetch_before_send h hc j hj

/-- Witness for C8: a concrete three-step execution — completed send,
internal accounting, then the next fetch call — in which the send of
the pending event precedes the fetch, with no fetch before it. -/
theorem notify_send_blocks_session_witness :
    ∃ pre suf,
      [Label.send (mkEvent "s8" (⟨(), ⟨5⟩, none⟩ : FetchResult Unit Unit)),
        Label.tau, Label.startFetch 5] =
        pre ++ Label.send (mkEvent "s8" (⟨(), ⟨5⟩, none⟩ : FetchResult Unit Unit))
          :: suf ∧
      ∀ k, Label.startFetch k ∉ pre := by
  have hsteps : Steps "s8"
      (⟨Phase.sendWait ⟨(), ⟨5⟩, none⟩, 0, 0, false, false⟩ : Config Unit Unit)
      [Label.send (mkEvent "s8" ⟨(), ⟨5⟩, none⟩), Label.tau, Label.startFetch 5]
      ⟨Phase.fetchWait, 5, 0, false, false⟩ :=
    Steps.cons (Step.sendCompletes ⟨(), ⟨5⟩, none⟩ 0 0 false)
      (Steps.cons (Step.backoffSkip ⟨(), ⟨5⟩, none⟩ 5 0 false false rfl)
        (Steps.cons (Step.fetchCall 5 0 false) (Steps.refl _)))
  exact (notify_send_blocks_session "s8" ⟨(), ⟨5⟩, none⟩ 0 0 false Label.tau
      ⟨Phase.sendWait ⟨(), ⟨5⟩, none⟩, 0, 0, false, false⟩
      ⟨Phase.fetchWait, 5, 0, false, false⟩
      ⟨Phase.fetchWait, 5, 0, false, false⟩
      [Label.send (mkEvent "s8" ⟨(), ⟨5⟩, none⟩), Label.tau, Label.startFetch 5]
      5).2 hsteps rfl (by simp)

end CacheWatch
